import Mathlib

/-!
Verification of the synchronization core of the `pictionary` client
(frontend/src/pages/GamePage.tsx and frontend/src/components/DrawingCanvas.tsx).

The embedding is shallow: the React component state becomes explicit record
state, the WebSocket message handler becomes a step function on that state,
and the canvas becomes the list of line segments currently visible on it.
Coordinates and brush sizes are modelled as `Int` (the claims under study
only compare them for equality), timestamps as `Rat` (the code divides
`Date.now()` by 1000 and takes `Math.floor`, so fractional seconds matter).
JavaScript truthiness tests on numbers (`if (msg.payload.timer_expires_at)`,
`if (timerIntervalRef.current)`) are modelled faithfully: a number is truthy
iff it is non-zero.
-/

namespace Pictionary

/-- The action tag of a `DrawingData` point
(frontend/src/types/game.ts: `action: "start" | "draw" | "end" | "clear"`). -/
inductive DrawAction : Type
  | start
  | draw
  | stop
  | clear
deriving DecidableEq, Repr

/-- One sampled drawing event
(frontend/src/types/game.ts: `DrawingData`). -/
structure DrawingData : Type where
  x : Int
  y : Int
  color : String
  brush_size : Int
  action : DrawAction
deriving DecidableEq, Repr

/-- One rendered line segment on the canvas: the observable effect of a
`ctx.moveTo(from); ctx.lineTo(to); ctx.stroke()` sequence together with the
stroke style in force at that moment. -/
structure Segment : Type where
  fromX : Int
  fromY : Int
  toX : Int
  toY : Int
  color : String
  brush_size : Int
deriving DecidableEq, Repr

/-- The drawing surface: the ordered list of segments currently visible.
`ctx.clearRect(0, 0, w, h)` resets it to `[]`. -/
abbrev Surface : Type := List Segment

/-- `drawSegment` from DrawingCanvas.tsx. On a `start` point it only calls
`beginPath`/`moveTo`, leaving the surface unchanged; on a `draw` point with a
`startPoint` it strokes one segment from `startPoint` to the point, styled
with the point's own `color` and `brush_size`; on any other input it draws
nothing. -/
def drawSegment (surface : Surface) (data : DrawingData)
    (startPoint : Option (Int × Int)) : Surface :=
  match data.action, startPoint with
  | DrawAction.draw, some p =>
      surface ++ [⟨p.1, p.2, data.x, data.y, data.color, data.brush_size⟩]
  | _, _ => surface

/-- The inner loop of `redrawAll` over one stroke's points: `prevPoint`
starts as `null`; a `start` point records itself as `prevPoint` and calls
`drawSegment` with a `null` start point; a `draw` point with a `prevPoint`
calls `drawSegment` from it and then advances `prevPoint`; every other point
is skipped. -/
def replayStroke (surface : Surface) (prevPoint : Option (Int × Int)) :
    List DrawingData → Surface
  | [] => surface
  | data :: rest =>
    match data.action with
    | DrawAction.start =>
        replayStroke (drawSegment surface data none) (some (data.x, data.y)) rest
    | DrawAction.draw =>
        match prevPoint with
        | some p =>
            replayStroke (drawSegment surface data (some p))
              (some (data.x, data.y)) rest
        | none => replayStroke surface prevPoint rest
    | _ => replayStroke surface prevPoint rest

/-- `redrawAll` from DrawingCanvas.tsx: clear the whole canvas
(`ctx.clearRect`), then replay every stroke of `remoteDrawingStrokes` in
order, each with its own `prevPoint` starting at `null` (the `stroke.length
> 0` guard is kept from the source). -/
def redrawAll (remoteDrawingStrokes : List (List DrawingData)) : Surface :=
  remoteDrawingStrokes.foldl
    (fun surface stroke =>
      if stroke.length > 0 then replayStroke surface none stroke else surface)
    []

/-- The canvas-side mutable state of `DrawingCanvas`: the visible surface and
the `lastPoint` ref used as the running anchor of the incremental path. -/
structure CanvasState : Type where
  surface : Surface
  lastPoint : Option (Int × Int)
deriving DecidableEq, Repr

/-- The incremental-application effect of DrawingCanvas.tsx (the
`useEffect` on `currentDrawingData`): it runs only when `currentDrawingData`
is non-null and the local participant is not the drawer; `start` sets
`lastPoint` and draws nothing, `draw` with a `lastPoint` strokes one segment
and advances it, `draw` without one falls through every branch, `end` clears
`lastPoint`, `clear` wipes the canvas and clears `lastPoint`. -/
def incrementalEffect (isDrawer : Bool) (currentDrawingData : Option DrawingData)
    (st : CanvasState) : CanvasState :=
  match currentDrawingData with
  | none => st
  | some data =>
    if isDrawer then st
    else
      match data.action with
      | DrawAction.start =>
          { surface := drawSegment st.surface data none
            lastPoint := some (data.x, data.y) }
      | DrawAction.draw =>
          match st.lastPoint with
          | some p =>
              { surface := drawSegment st.surface data (some p)
                lastPoint := some (data.x, data.y) }
          | none => st
      | DrawAction.stop => { st with lastPoint := none }
      | DrawAction.clear => { surface := [], lastPoint := none }

/-- Applying a whole point sequence through the incremental path, one
`DRAWING_UPDATE` at a time. -/
def runIncremental (isDrawer : Bool) (st : CanvasState)
    (points : List DrawingData) : CanvasState :=
  points.foldl (fun s d => incrementalEffect isDrawer (some d) s) st

/-- A participant (frontend/src/types/game.ts: `Player`). -/
structure Player : Type where
  id : String
  name : String
  score : Int
deriving DecidableEq, Repr

/-- The `GameState` payload of a `GAME_STATE_UPDATE` / `GAME_OVER` frame
(frontend/src/types/game.ts: `GameState`). `drawing_strokes` is kept
optional because GamePage.tsx guards it with `|| []`; `timer_expires_at` is
epoch seconds, possibly fractional. -/
structure SessionPayload : Type where
  id : String
  players : List (String × Player)
  host_id : String
  is_game_started : Bool
  current_drawer_id : Option String
  secret_word : Option String
  guessed_word_hint : Option String
  timer_expires_at : Option Rat
  round_number : Nat
  total_rounds : Nat
  drawing_strokes : Option (List (List DrawingData))
  used_words : List String
  word_category : Option String
deriving DecidableEq, Repr

/-- A chat line (frontend/src/types/game.ts: `ChatMessage`). -/
structure ChatMessage : Type where
  sender : String
  message : String
  isCorrectGuess : Bool
deriving DecidableEq, Repr

/-- An inbound WebSocket frame, already discriminated on its `type` string
the way the `switch` in `handleWebSocketMessage` does. Optional payload
fields that the handler reads defensively are `Option`s. -/
inductive WsMessage : Type
  | gameStateUpdate (payload : SessionPayload)
  | chatMessage (sender message : String) (isCorrectGuess : Option Bool)
  | drawingUpdate (payload : DrawingData)
  | wordToDraw (current_drawer_id : String) (words : List String)
  | gameOver (payload : SessionPayload) (winner_name : Option String)
  | error (message : String)
  | unrecognized (type_ : String)
deriving DecidableEq, Repr

/-- JavaScript truthiness of an optional number: `null`/`undefined` and `0`
are falsy, every other value is truthy. -/
def truthyRat : Option Rat → Bool
  | none => false
  | some q => q ≠ 0

/-- The React state of `GamePage` that the claims touch, together with an
explicit model of `window.setInterval`: `intervals` is the list of currently
alive tick sources, each an id paired with the `expiresAt` its callback
closed over; `nextIntervalId` is the next id `window.setInterval` would
return (interval ids are positive, so allocation starts at 1);
`timerIntervalRef` is `timerIntervalRef.current` (`none` for `null`). -/
structure PageState : Type where
  gameState : Option SessionPayload
  chatMessages : List ChatMessage
  drawingHistory : List (List DrawingData)
  currentRemoteDrawingPoint : Option DrawingData
  wordsToChoose : List String
  timeLeft : Nat
  intervals : List (Nat × Rat)
  nextIntervalId : Nat
  timerIntervalRef : Option Nat
  wsOpen : Bool
deriving DecidableEq, Repr

/-- `clearInterval id`: the tick source with that id (if alive) dies. -/
def clearInterval (st : PageState) (id : Nat) : PageState :=
  { st with intervals := st.intervals.filter (fun p => p.1 ≠ id) }

/-- `window.setInterval` with the 1-second callback of the timer: allocates
a fresh id, registers a tick source carrying the captured `expiresAt`, and
stores the id in `timerIntervalRef.current`. -/
def setTimerInterval (st : PageState) (expiresAt : Rat) : PageState :=
  { st with
      intervals := st.intervals ++ [(st.nextIntervalId, expiresAt)]
      nextIntervalId := st.nextIntervalId + 1
      timerIntervalRef := some st.nextIntervalId }

/-- The `remaining` computed inside the tick callback:
`Math.max(0, Math.floor(expiresAt - now))`, with `now = Date.now() / 1000`
in (possibly fractional) seconds. -/
def remainingAt (expiresAt now : Rat) : Nat :=
  (max 0 ⌊expiresAt - now⌋).toNat

/-- JavaScript truthiness of `timerIntervalRef.current`: `null` and `0` are
falsy. (`window.setInterval` returns positive ids, so 0 never occurs live;
the model allocates ids from 1 for the same reason.) -/
def truthyRef : Option Nat → Bool
  | none => false
  | some id => id ≠ 0

/-- One firing, at wall-clock time `now`, of the tick callback belonging to
the interval with the given `id`. A dead interval never fires. The callback
recomputes `remaining` from the `expiresAt` it closed over, stores it in
`timeLeft`, and — when `remaining === 0 && timerIntervalRef.current` — clears
whatever interval the ref currently names and nulls the ref. -/
def timerTick (st : PageState) (id : Nat) (now : Rat) : PageState :=
  match (st.intervals.filter (fun p => p.1 = id)).head? with
  | none => st
  | some (_, expiresAt) =>
    let remaining := remainingAt expiresAt now
    let st := { st with timeLeft := remaining }
    if remaining = 0 ∧ truthyRef st.timerIntervalRef then
      { clearInterval st (st.timerIntervalRef.getD 0) with
          timerIntervalRef := none }
    else st

/-- The timer-handling block of the `GAME_STATE_UPDATE` branch of
`handleWebSocketMessage`. `if (msg.payload.timer_expires_at)` is a JS
truthiness test; in the truthy branch the existing interval (when the ref is
truthy) is cleared and a fresh 1-second interval is started — `timeLeft` is
not touched here, only the tick callback writes it; in the falsy branch
`timeLeft` is zeroed and the interval (when the ref is truthy) cleared and
the ref nulled. -/
def handleTimer (st : PageState) (timer_expires_at : Option Rat) : PageState :=
  match timer_expires_at with
  | some expiresAt =>
      if truthyRat timer_expires_at then
        let st :=
          if truthyRef st.timerIntervalRef then
            clearInterval st (st.timerIntervalRef.getD 0)
          else st
        setTimerInterval st expiresAt
      else
        let st := { st with timeLeft := 0 }
        if truthyRef st.timerIntervalRef then
          { clearInterval st (st.timerIntervalRef.getD 0) with
              timerIntervalRef := none }
        else st
  | none =>
      let st := { st with timeLeft := 0 }
      if truthyRef st.timerIntervalRef then
        { clearInterval st (st.timerIntervalRef.getD 0) with
            timerIntervalRef := none }
      else st

/-- `handleWebSocketMessage` from GamePage.tsx as a step function on the
page state; `playerId` is the local participant's id captured by the
`useCallback`. -/
def handleWebSocketMessage (playerId : String) (st : PageState)
    (msg : WsMessage) : PageState :=
  match msg with
  | WsMessage.gameStateUpdate payload =>
      let st :=
        { st with
            gameState := some payload
            drawingHistory := payload.drawing_strokes.getD []
            currentRemoteDrawingPoint := none }
      handleTimer st payload.timer_expires_at
  | WsMessage.chatMessage sender message isCorrectGuess =>
      { st with
          chatMessages :=
            st.chatMessages ++ [⟨sender, message, isCorrectGuess.getD false⟩] }
  | WsMessage.drawingUpdate payload =>
      { st with currentRemoteDrawingPoint := some payload }
  | WsMessage.wordToDraw current_drawer_id words =>
      if playerId = current_drawer_id then
        { st with wordsToChoose := words }
      else st
  | WsMessage.gameOver payload winner_name =>
      { st with
          gameState := some payload
          chatMessages :=
            st.chatMessages ++
              [⟨"Game",
                "GAME OVER! Winner: " ++ winner_name.getD "No one (tie)",
                true⟩] }
  | WsMessage.error message =>
      { st with
          chatMessages :=
            st.chatMessages ++ [⟨"System", "Error: " ++ message, false⟩] }
  | WsMessage.unrecognized _ => st

/-- The cleanup function of the connection `useEffect` in GamePage.tsx
(session teardown): close the WebSocket and, if the ref is truthy, clear the
interval. It neither nulls the ref nor touches `timeLeft`. -/
def teardownCleanup (st : PageState) : PageState :=
  let st := { st with wsOpen := false }
  if truthyRef st.timerIntervalRef then
    clearInterval st (st.timerIntervalRef.getD 0)
  else st

/-- The combined client state: the page state plus the canvas state owned by
`DrawingCanvas` (the `lastPoint` ref and the rendered surface). -/
structure ClientState : Type where
  page : PageState
  canvas : CanvasState
deriving DecidableEq, Repr

/-- One inbound frame processed end to end: the dispatcher updates the page
state, then the canvas effects fire. A `GAME_STATE_UPDATE` (which replaces
`remoteDrawingStrokes`) triggers the `redrawAll` effect, which repaints the
surface but never touches the `lastPoint` ref; a `DRAWING_UPDATE` (which
replaces `currentDrawingData`) triggers the incremental-application effect.
`isDrawer` is the prop computed by GamePage. -/
def clientStep (playerId : String) (isDrawer : Bool) (cs : ClientState)
    (msg : WsMessage) : ClientState :=
  let page := handleWebSocketMessage playerId cs.page msg
  match msg with
  | WsMessage.gameStateUpdate _ =>
      { page := page
        canvas :=
          { surface := redrawAll page.drawingHistory
            lastPoint := cs.canvas.lastPoint } }
  | WsMessage.drawingUpdate _ =>
      { page := page
        canvas :=
          incrementalEffect isDrawer page.currentRemoteDrawingPoint cs.canvas }
  | _ => { page := page, canvas := cs.canvas }

/-- The two points of the spec's one-stroke scenario. -/
def scenarioStart : DrawingData := ⟨0, 0, "#000", 4, DrawAction.start⟩

/-- The `draw` point of the spec's one-stroke scenario. -/
def scenarioDraw : DrawingData := ⟨10, 10, "#000", 4, DrawAction.draw⟩

lemma replayStroke_start (surface : Surface) (prevPoint : Option (Int × Int))
    (d : DrawingData) (rest : List DrawingData) (h : d.action = DrawAction.start) :
    replayStroke surface prevPoint (d :: rest) =
      replayStroke surface (some (d.x, d.y)) rest := by
  simp [replayStroke, h, drawSegment]

lemma replayStroke_draw (surface : Surface) (p : Int × Int)
    (d : DrawingData) (rest : List DrawingData) (h : d.action = DrawAction.draw) :
    replayStroke surface (some p) (d :: rest) =
      replayStroke
        (surface ++ [⟨p.1, p.2, d.x, d.y, d.color, d.brush_size⟩])
        (some (d.x, d.y)) rest := by
  simp [replayStroke, h, drawSegment]

lemma incrementalEffect_start (st : CanvasState) (d : DrawingData)
    (h : d.action = DrawAction.start) :
    incrementalEffect false (some d) st =
      { surface := st.surface, lastPoint := some (d.x, d.y) } := by
  simp [incrementalEffect, h, drawSegment]

lemma incrementalEffect_draw (st : CanvasState) (p : Int × Int) (d : DrawingData)
    (ha : d.action = DrawAction.draw) (hp : st.lastPoint = some p) :
    incrementalEffect false (some d) st =
      { surface := st.surface ++ [⟨p.1, p.2, d.x, d.y, d.color, d.brush_size⟩]
        lastPoint := some (d.x, d.y) } := by
  simp [incrementalEffect, ha, hp, drawSegment]

lemma runIncremental_draws (rest : List DrawingData) :
    ∀ (surface : Surface) (p : Int × Int),
      (∀ d ∈ rest, d.action = DrawAction.draw) →
      (runIncremental false ⟨surface, some p⟩ rest).surface =
        replayStroke surface (some p) rest := by
  induction rest with
  | nil => intro surface p _; rfl
  | cons d rest ih =>
      intro surface p h
      have hd : d.action = DrawAction.draw := h d (List.mem_cons_self d rest)
      have hrest : ∀ d' ∈ rest, d'.action = DrawAction.draw :=
        fun d' hd' => h d' (List.mem_cons_of_mem d hd')
      have step :
          incrementalEffect false (some d) ⟨surface, some p⟩ =
            ⟨surface ++ [⟨p.1, p.2, d.x, d.y, d.color, d.brush_size⟩],
              some (d.x, d.y)⟩ :=
        incrementalEffect_draw ⟨surface, some p⟩ p d hd rfl
      calc (runIncremental false ⟨surface, some p⟩ (d :: rest)).surface
          = (runIncremental false
              ⟨surface ++ [⟨p.1, p.2, d.x, d.y, d.color, d.brush_size⟩],
                some (d.x, d.y)⟩ rest).surface := by
            simp only [runIncremental, List.foldl_cons, step]
        _ = replayStroke
              (surface ++ [⟨p.1, p.2, d.x, d.y, d.color, d.brush_size⟩])
              (some (d.x, d.y)) rest := ih _ _ hrest
        _ = replayStroke surface (some p) (d :: rest) :=
            (replayStroke_draw surface p d rest hd).symm

/-- C2. Full replay clears the surface first (`redrawAll` folds from the
empty surface), a `start` point only sets the running anchor and adds no
segment, a `draw` point with an anchor adds exactly one segment from the
anchor to the point styled with the point's own color and brush size and
advances the anchor; replaying the one-stroke history
`[[(0,0,start),(10,10,draw)]]` renders exactly the segment (0,0)–(10,10). -/
theorem claim_C2 :
    (∀ (strokes : List (List DrawingData)),
        redrawAll strokes =
          strokes.foldl
            (fun surface stroke =>
              if stroke.length > 0 then replayStroke surface none stroke
              else surface) []) ∧
    (∀ (surface : Surface) (prevPoint : Option (Int × Int)) (d : DrawingData)
        (rest : List DrawingData),
        d.action = DrawAction.start →
        replayStroke surface prevPoint (d :: rest) =
          replayStroke surface (some (d.x, d.y)) rest) ∧
    (∀ (surface : Surface) (p : Int × Int) (d : DrawingData)
        (rest : List DrawingData),
        d.action = DrawAction.draw →
        replayStroke surface (some p) (d :: rest) =
          replayStroke
            (surface ++ [⟨p.1, p.2, d.x, d.y, d.color, d.brush_size⟩])
            (some (d.x, d.y)) rest) ∧
    redrawAll [[scenarioStart, scenarioDraw]] =
      [⟨0, 0, 10, 10, "#000", 4⟩] := by
  refine ⟨fun strokes => rfl, replayStroke_start, replayStroke_draw, ?_⟩
  rfl

/-- C3. For a well-formed stroke (first point `start`, all remaining points
`draw`), feeding the points one at a time through the incremental path,
starting with no anchor, renders exactly the surface produced by full replay
of the one-stroke history containing that stroke. -/
theorem claim_C3 (d0 : DrawingData) (rest : List DrawingData)
    (h0 : d0.action = DrawAction.start)
    (hrest : ∀ d ∈ rest, d.action = DrawAction.draw) :
    (runIncremental false ⟨[], none⟩ (d0 :: rest)).surface =
      redrawAll [d0 :: rest] := by
  have step : incrementalEffect false (some d0) ⟨[], none⟩ =
      ⟨[], some (d0.x, d0.y)⟩ :=
    incrementalEffect_start ⟨[], none⟩ d0 h0
  calc (runIncremental false ⟨[], none⟩ (d0 :: rest)).surface
      = (runIncremental false ⟨[], some (d0.x, d0.y)⟩ rest).surface := by
        simp only [runIncremental, List.foldl_cons, step]
    _ = replayStroke [] (some (d0.x, d0.y)) rest :=
        runIncremental_draws rest [] (d0.x, d0.y) hrest
    _ = replayStroke [] none (d0 :: rest) :=
        (replayStroke_start [] none d0 rest h0).symm
    _ = redrawAll [d0 :: rest] := by
        simp [redrawAll]

/-- Witness for C3 at the spec's concrete scenario stroke. -/
theorem claim_C3_witness :
    (runIncremental false ⟨[], none⟩ [scenarioStart, scenarioDraw]).surface =
      redrawAll [[scenarioStart, scenarioDraw]] := by
  refine claim_C3 scenarioStart [scenarioDraw] rfl ?_
  intro d hd
  simp only [List.mem_singleton] at hd
  rw [hd]
  rfl

/-- Witness for C2: the hypothetical conjuncts applied at the concrete
scenario points. -/
theorem claim_C2_witness :
    redrawAll [[scenarioStart, scenarioDraw]] = [⟨0, 0, 10, 10, "#000", 4⟩] ∧
    replayStroke [] none [scenarioStart, scenarioDraw] =
      replayStroke [] (some (scenarioStart.x, scenarioStart.y))
        [scenarioDraw] ∧
    replayStroke [] (some (0, 0)) [scenarioDraw] =
      replayStroke [⟨0, 0, 10, 10, "#000", 4⟩]
        (some (scenarioDraw.x, scenarioDraw.y)) [] :=
  ⟨claim_C2.2.2.2,
    claim_C2.2.1 [] none scenarioStart [scenarioDraw] rfl,
    claim_C2.2.2.1 [] (0, 0) scenarioDraw [] rfl⟩

/-- C7. When the local participant is the active drawer, the incremental
application path never touches the canvas: the `useEffect` body is guarded
by `!isDrawer`, so no inbound `DRAWING_UPDATE` point is ever applied through
it (the drawer's own echoed events are not double-rendered). -/
theorem claim_C7 :
    (∀ (currentDrawingData : Option DrawingData) (st : CanvasState),
        incrementalEffect true currentDrawingData st = st) ∧
    (∀ (playerId : String) (cs : ClientState) (d : DrawingData),
        (clientStep playerId true cs (WsMessage.drawingUpdate d)).canvas =
          cs.canvas) := by
  constructor
  · intro currentDrawingData st
    cases currentDrawingData <;> rfl
  · intro playerId cs d
    rfl

/-- C8. A `draw` point arriving through the incremental path while no anchor
exists is dropped silently: the canvas state (surface and anchor alike) is
exactly unchanged, and no error value exists anywhere in the path. -/
theorem claim_C8 (st : CanvasState) (d : DrawingData)
    (ha : d.action = DrawAction.draw) (hp : st.lastPoint = none) :
    incrementalEffect false (some d) st = st := by
  simp [incrementalEffect, ha, hp]

/-- Witness for C8: a concrete anchorless `draw` point is a no-op. -/
theorem claim_C8_witness :
    incrementalEffect false (some scenarioDraw) ⟨[], none⟩ =
      (⟨[], none⟩ : CanvasState) :=
  claim_C8 ⟨[], none⟩ scenarioDraw rfl rfl

/-- C9. Full replay ignores `end` and `clear` points entirely (surface and
running anchor both pass through unchanged), whereas the same `clear` point
fed through the incremental path wipes the whole surface and drops the
anchor. -/
theorem claim_C9 :
    (∀ (surface : Surface) (prevPoint : Option (Int × Int)) (d : DrawingData)
        (rest : List DrawingData),
        d.action = DrawAction.stop ∨ d.action = DrawAction.clear →
        replayStroke surface prevPoint (d :: rest) =
          replayStroke surface prevPoint rest) ∧
    (∀ (st : CanvasState) (d : DrawingData),
        d.action = DrawAction.clear →
        incrementalEffect false (some d) st =
          (⟨[], none⟩ : CanvasState)) := by
  constructor
  · intro surface prevPoint d rest h
    rcases h with h | h <;> simp [replayStroke, h]
  · intro st d h
    simp [incrementalEffect, h]

/-- Witness for C9: a concrete `clear` point inside a stored stroke is
skipped by replay but wipes the surface through the incremental path. -/
theorem claim_C9_witness :
    replayStroke [⟨0, 0, 10, 10, "#000", 4⟩] none
        [⟨0, 0, "#000", 4, DrawAction.clear⟩] =
      [⟨0, 0, 10, 10, "#000", 4⟩] ∧
    incrementalEffect false (some ⟨0, 0, "#000", 4, DrawAction.clear⟩)
        ⟨[⟨0, 0, 10, 10, "#000", 4⟩], some (10, 10)⟩ =
      (⟨[], none⟩ : CanvasState) :=
  ⟨claim_C9.1 [⟨0, 0, 10, 10, "#000", 4⟩] none
      ⟨0, 0, "#000", 4, DrawAction.clear⟩ [] (Or.inr rfl),
    claim_C9.2 ⟨[⟨0, 0, 10, 10, "#000", 4⟩], some (10, 10)⟩
      ⟨0, 0, "#000", 4, DrawAction.clear⟩ rfl⟩

lemma handleTimer_proj (st : PageState) (t : Option Rat) :
    (handleTimer st t).gameState = st.gameState ∧
    (handleTimer st t).drawingHistory = st.drawingHistory ∧
    (handleTimer st t).currentRemoteDrawingPoint =
      st.currentRemoteDrawingPoint := by
  by_cases h2 : truthyRef st.timerIntervalRef = true
  all_goals rcases t with _ | e
  all_goals simp_all [handleTimer, truthyRat, clearInterval, setTimerInterval]
  all_goals split_ifs <;> simp [clearInterval]

/-- C1. A `GAME_STATE_UPDATE` frame replaces the session state wholesale
with the payload, replaces the stroke history wholesale with
`payload.drawing_strokes` (the empty sequence when absent), and clears the
pending remote DrawPoint. -/
theorem claim_C1 (playerId : String) (st : PageState) (payload : SessionPayload) :
    (handleWebSocketMessage playerId st
        (WsMessage.gameStateUpdate payload)).gameState = some payload ∧
    (handleWebSocketMessage playerId st
        (WsMessage.gameStateUpdate payload)).drawingHistory =
      payload.drawing_strokes.getD [] ∧
    (handleWebSocketMessage playerId st
        (WsMessage.gameStateUpdate payload)).currentRemoteDrawingPoint =
      none := by
  simp only [handleWebSocketMessage]
  refine ⟨?_, ?_, ?_⟩
  · rw [(handleTimer_proj _ _).1]
  · rw [(handleTimer_proj _ _).2.1]
  · rw [(handleTimer_proj _ _).2.2]

/-- The page state on mount: no session yet, empty logs, `timeLeft = 0`, no
interval alive, ref `null` (interval ids are allocated from 1, as
`window.setInterval` returns positive ids). -/
def initialPageState : PageState :=
  { gameState := none
    chatMessages := []
    drawingHistory := []
    currentRemoteDrawingPoint := none
    wordsToChoose := []
    timeLeft := 0
    intervals := []
    nextIntervalId := 1
    timerIntervalRef := none
    wsOpen := true }

/-- The timer-state invariant: interval ids are allocated from 1 and stay
below the allocation counter, and the alive tick sources are either none, or
exactly one — the one `timerIntervalRef.current` names. In particular there
is never more than one active tick source. -/
def TimerInv (st : PageState) : Prop :=
  1 ≤ st.nextIntervalId ∧
  (∀ id, st.timerIntervalRef = some id → 1 ≤ id ∧ id < st.nextIntervalId) ∧
  (st.intervals = [] ∨
    ∃ id E, st.intervals = [(id, E)] ∧ st.timerIntervalRef = some id)

lemma remainingAt_anti (E : Rat) {now1 now2 : Rat} (h : now1 ≤ now2) :
    remainingAt E now2 ≤ remainingAt E now1 := by
  unfold remainingAt
  have hsub : E - now2 ≤ E - now1 := by linarith
  have hfl : ⌊E - now2⌋ ≤ ⌊E - now1⌋ := Int.floor_le_floor hsub
  exact Int.toNat_le_toNat (max_le_max le_rfl hfl)

lemma handleTimer_arm (st : PageState) (e : Rat) (hinv : TimerInv st)
    (hne : e ≠ 0) :
    handleTimer st (some e) =
      { st with
          intervals := [(st.nextIntervalId, e)]
          nextIntervalId := st.nextIntervalId + 1
          timerIntervalRef := some st.nextIntervalId } := by
  obtain ⟨hn, href, hcase⟩ := hinv
  have ht : truthyRat (some e) = true := by simp [truthyRat, hne]
  by_cases hr : truthyRef st.timerIntervalRef = true
  · have hcleared :
        (clearInterval st (st.timerIntervalRef.getD 0)).intervals = [] := by
      rcases hcase with hnil | ⟨id, E, hi, hrf⟩
      · simp [clearInterval, hnil]
      · simp [clearInterval, hi, hrf]
    simp only [handleTimer, ht, if_true, hr, if_true]
    simp only [setTimerInterval]
    cases st
    simp_all [clearInterval, setTimerInterval]
    all_goals assumption
  · have hrefnone : st.timerIntervalRef = none := by
      rcases hrf : st.timerIntervalRef with _ | id
      · rfl
      · exfalso
        have h1 : 1 ≤ id := (href id hrf).1
        have : truthyRef (some id) = true := by
          simp [truthyRef]
          omega
        rw [hrf] at hr
        exact hr this
    have hnil : st.intervals = [] := by
      rcases hcase with hnil | ⟨id, E, hi, hrf⟩
      · exact hnil
      · rw [hrefnone] at hrf
        cases hrf
    simp only [handleTimer, ht, if_true, hr, if_false]
    cases st
    simp_all [setTimerInterval]

lemma handleTimer_disarm (st : PageState) (hinv : TimerInv st) (t : Option Rat)
    (ht : truthyRat t = false) :
    handleTimer st t =
      { st with timeLeft := 0, intervals := [], timerIntervalRef := none } := by
  obtain ⟨hn, href, hcase⟩ := hinv
  by_cases hr : truthyRef st.timerIntervalRef = true
  · have hcleared :
        List.filter (fun p => p.1 ≠ st.timerIntervalRef.getD 0)
          st.intervals = [] := by
      rcases hcase with hnil | ⟨id, E, hi, hrf⟩
      · simp [hnil]
      · simp [hi, hrf]
    rcases t with _ | e
    · simp only [handleTimer, hr, if_true]
      cases st
      simp_all [clearInterval]
      all_goals assumption
    · simp only [handleTimer, ht, if_false, hr, if_true]
      cases st
      simp_all [clearInterval]
      all_goals assumption
  · have hrefnone : st.timerIntervalRef = none := by
      rcases hrf : st.timerIntervalRef with _ | id
      · rfl
      · exfalso
        have h1 : 1 ≤ id := (href id hrf).1
        have : truthyRef (some id) = true := by
          simp [truthyRef]
          omega
        rw [hrf] at hr
        exact hr this
    have hnil : st.intervals = [] := by
      rcases hcase with hnil | ⟨id, E, hi, hrf⟩
      · exact hnil
      · rw [hrefnone] at hrf
        cases hrf
    rcases t with _ | e
    · simp only [handleTimer, hr, if_false]
      cases st
      simp_all
    · simp only [handleTimer, ht, if_false, hr, if_false]
      cases st
      simp_all

lemma timerTick_dead (st : PageState) (id : Nat) (now : Rat)
    (h : st.intervals = []) : timerTick st id now = st := by
  simp [timerTick, h]

lemma timerTick_armed (st : PageState) (id : Nat) (E now : Rat)
    (hint : st.intervals = [(id, E)]) (href : st.timerIntervalRef = some id)
    (hid : 1 ≤ id) :
    timerTick st id now =
      (if remainingAt E now = 0 then
        { st with timeLeft := 0, intervals := [], timerIntervalRef := none }
      else { st with timeLeft := remainingAt E now }) := by
  have htr : truthyRef st.timerIntervalRef = true := by
    rw [href]
    simp [truthyRef]
    omega
  by_cases h0 : remainingAt E now = 0
  · simp only [timerTick, hint, href]
    rw [if_pos h0]
    simp_all [clearInterval, truthyRef, h0]
  · simp only [timerTick, hint, href]
    rw [if_neg h0]
    simp_all [clearInterval, truthyRef, h0]

lemma timerInv_handleTimer (st : PageState) (t : Option Rat)
    (hinv : TimerInv st) : TimerInv (handleTimer st t) := by
  by_cases ht : truthyRat t = true
  · rcases t with _ | e
    · simp [truthyRat] at ht
    · have hne : e ≠ 0 := by
        simpa [truthyRat] using ht
      rw [handleTimer_arm st e hinv hne]
      obtain ⟨hn, -, -⟩ := hinv
      unfold TimerInv
      refine ⟨?_, ?_, ?_⟩
      · show 1 ≤ st.nextIntervalId + 1
        omega
      · show ∀ id, some st.nextIntervalId = some id →
          1 ≤ id ∧ id < st.nextIntervalId + 1
        intro id hid
        injection hid with hid
        omega
      · exact Or.inr ⟨st.nextIntervalId, e, rfl, rfl⟩
  · rw [handleTimer_disarm st hinv t (by simpa using ht)]
    obtain ⟨hn, -, -⟩ := hinv
    unfold TimerInv
    refine ⟨hn, ?_, Or.inl rfl⟩
    intro id hid
    exact absurd hid (by simp)

lemma timerInv_const (st st' : PageState)
    (h1 : st'.nextIntervalId = st.nextIntervalId)
    (h2 : st'.timerIntervalRef = st.timerIntervalRef)
    (h3 : st'.intervals = st.intervals)
    (hinv : TimerInv st) : TimerInv st' := by
  unfold TimerInv at hinv ⊢
  rw [h1, h2, h3]
  exact hinv

lemma timerInv_handle (playerId : String) (st : PageState) (msg : WsMessage)
    (hinv : TimerInv st) :
    TimerInv (handleWebSocketMessage playerId st msg) := by
  cases msg with
  | gameStateUpdate payload =>
      have hinv' :
          TimerInv
            { st with
                gameState := some payload
                drawingHistory := payload.drawing_strokes.getD []
                currentRemoteDrawingPoint := none } :=
        timerInv_const st _ rfl rfl rfl hinv
      exact timerInv_handleTimer _ _ hinv'
  | chatMessage sender message isCorrectGuess =>
      exact timerInv_const st _ rfl rfl rfl hinv
  | drawingUpdate payload => exact timerInv_const st _ rfl rfl rfl hinv
  | wordToDraw current_drawer_id words =>
      by_cases h : playerId = current_drawer_id
      · simp only [handleWebSocketMessage, h, if_true]
        exact timerInv_const st _ rfl rfl rfl hinv
      · simp only [handleWebSocketMessage, h, if_false]
        exact hinv
  | gameOver payload winner_name => exact timerInv_const st _ rfl rfl rfl hinv
  | error message => exact timerInv_const st _ rfl rfl rfl hinv
  | unrecognized type_ => exact hinv

lemma timerInv_timerTick (st : PageState) (id : Nat) (now : Rat)
    (hinv : TimerInv st) : TimerInv (timerTick st id now) := by
  obtain ⟨hn, href, hcase⟩ := hinv
  rcases hcase with hnil | ⟨id', E, hi, hrf⟩
  · rw [timerTick_dead st id now hnil]
    exact ⟨hn, href, Or.inl hnil⟩
  · by_cases hfire : id = id'
    · subst hfire
      have h1 : 1 ≤ id := (href id hrf).1
      rw [timerTick_armed st id E now hi hrf h1]
      split_ifs
      · unfold TimerInv
        refine ⟨hn, ?_, Or.inl rfl⟩
        intro i hid
        exact absurd hid (by simp)
      · unfold TimerInv
        exact ⟨hn, href, Or.inr ⟨id, E, hi, hrf⟩⟩
    · have hne : id' ≠ id := fun h => hfire h.symm
      have hdead : st.intervals.filter (fun p => p.1 = id) = [] := by
        rw [hi]
        simp [List.filter, hne]
      unfold timerTick
      rw [hdead]
      exact ⟨hn, href, Or.inr ⟨id', E, hi, hrf⟩⟩

lemma teardownCleanup_spec (st : PageState) (hinv : TimerInv st) :
    (teardownCleanup st).intervals = [] ∧
    (teardownCleanup st).timeLeft = st.timeLeft ∧
    (teardownCleanup st).timerIntervalRef = st.timerIntervalRef := by
  obtain ⟨hn, href, hcase⟩ := hinv
  by_cases hr : truthyRef st.timerIntervalRef = true
  · have hcleared :
        List.filter (fun p => p.1 ≠ st.timerIntervalRef.getD 0)
          st.intervals = [] := by
      rcases hcase with hnil | ⟨id, E, hi, hrf⟩
      · simp [hnil]
      · simp [hi, hrf]
    simp only [teardownCleanup, hr, if_true]
    exact ⟨by simpa [clearInterval] using hcleared, rfl, rfl⟩
  · have hrefnone : st.timerIntervalRef = none := by
      rcases hrf : st.timerIntervalRef with _ | id
      · rfl
      · exfalso
        have h1 : 1 ≤ id := (href id hrf).1
        have : truthyRef (some id) = true := by
          simp [truthyRef]
          omega
        rw [hrf] at hr
        exact hr this
    have hnil : st.intervals = [] := by
      rcases hcase with hnil | ⟨id, E, hi, hrf⟩
      · exact hnil
      · rw [hrefnone] at hrf
        cases hrf
    simp only [teardownCleanup, hr, if_false]
    exact ⟨hnil, rfl, rfl⟩

lemma timerInv_teardown (st : PageState) (hinv : TimerInv st) :
    TimerInv (teardownCleanup st) := by
  obtain ⟨h1, h2, h3⟩ := teardownCleanup_spec st hinv
  obtain ⟨hn, href, -⟩ := hinv
  have hn' : (teardownCleanup st).nextIntervalId = st.nextIntervalId := by
    by_cases hr : truthyRef st.timerIntervalRef = true <;>
      simp [teardownCleanup, hr, clearInterval]
  refine ⟨by rw [hn']; exact hn, ?_, Or.inl h1⟩
  intro id hid
  rw [h3] at hid
  rw [hn']
  exact href id hid

/-- A page state whose previous countdown left `timeLeft = 7`, with no
interval alive. -/
def staleState : PageState := { initialPageState with timeLeft := 7 }

/-- A minimal session payload; concrete snapshots below override
`timer_expires_at`. -/
def basePayload : SessionPayload :=
  { id := "room1"
    players := []
    host_id := "p1"
    is_game_started := true
    current_drawer_id := none
    secret_word := none
    guessed_word_hint := none
    timer_expires_at := none
    round_number := 1
    total_rounds := 3
    drawing_strokes := none
    used_words := []
    word_category := none }

/-- A page state armed with expiry 100 through interval 1, showing
`timeLeft = 5`. -/
def armedState : PageState := { initialPageState with
  timeLeft := 5
  intervals := [(1, (100 : Rat))]
  nextIntervalId := 2
  timerIntervalRef := some 1 }

lemma timerInv_armedState : TimerInv armedState := by
  refine ⟨by decide, ?_, Or.inr ⟨1, 100, rfl, rfl⟩⟩
  intro id h
  rw [show armedState.timerIntervalRef = some 1 from rfl] at h
  injection h with h
  subst h
  exact ⟨Nat.le_refl 1, by decide⟩

/-- Counterexample to C4 as stated. First: the dispatcher does not compute
`remaining` at arming time — arriving at wall-clock time 90 with expiry 100
(so `max(0, floor(100 − 90)) = 10`), the handler leaves the stale
`timeLeft = 7` in place; only the first tick, one second later, writes
`remaining`. Second: an expiry of 0 is non-null but falsy in JS, so no tick
source is started at all (the state had none and still has none). -/
theorem claim_C4_counterexample :
    (handleWebSocketMessage "p1" staleState
        (WsMessage.gameStateUpdate
          { basePayload with timer_expires_at := some 100 })).timeLeft = 7 ∧
    remainingAt 100 90 = 10 ∧ (7 : Nat) ≠ 10 ∧
    (handleWebSocketMessage "p1" staleState
        (WsMessage.gameStateUpdate
          { basePayload with timer_expires_at := some 0 })).intervals = [] := by
  refine ⟨by decide, ?_, by decide, by decide⟩
  simp [remainingAt]

/-- C4 as amended. On a snapshot whose expiry is non-null and non-zero (a
zero expiry is falsy in JS and disarms instead), the dispatcher cancels any
existing tick source and starts exactly one fresh tick driven by the fixed
expiry; `timeLeft` is not recomputed at arming time (it keeps its previous
value until the first tick); each tick recomputes
`remaining = max(0, floor(expiry − now))` from the fixed expiry, never from
elapsed-tick counting, and once `remaining` reaches 0 the tick clears its
own interval, after which no tick fires again for that arming. -/
theorem claim_C4_amended (playerId : String) (st : PageState)
    (payload : SessionPayload) (e : Rat) (hinv : TimerInv st)
    (he : payload.timer_expires_at = some e) (hne : e ≠ 0) :
    (handleWebSocketMessage playerId st
        (WsMessage.gameStateUpdate payload)).intervals =
      [(st.nextIntervalId, e)] ∧
    (handleWebSocketMessage playerId st
        (WsMessage.gameStateUpdate payload)).timerIntervalRef =
      some st.nextIntervalId ∧
    (handleWebSocketMessage playerId st
        (WsMessage.gameStateUpdate payload)).timeLeft = st.timeLeft ∧
    (∀ now,
      (timerTick
          (handleWebSocketMessage playerId st (WsMessage.gameStateUpdate payload))
          st.nextIntervalId now).timeLeft = remainingAt e now) ∧
    (∀ now, remainingAt e now = 0 →
      (timerTick
          (handleWebSocketMessage playerId st (WsMessage.gameStateUpdate payload))
          st.nextIntervalId now).intervals = [] ∧
      (timerTick
          (handleWebSocketMessage playerId st (WsMessage.gameStateUpdate payload))
          st.nextIntervalId now).timerIntervalRef = none ∧
      ∀ id2 now2,
        timerTick
          (timerTick
            (handleWebSocketMessage playerId st (WsMessage.gameStateUpdate payload))
            st.nextIntervalId now) id2 now2 =
        timerTick
          (handleWebSocketMessage playerId st (WsMessage.gameStateUpdate payload))
          st.nextIntervalId now) ∧
    (∀ now, remainingAt e now ≠ 0 →
      (timerTick
          (handleWebSocketMessage playerId st (WsMessage.gameStateUpdate payload))
          st.nextIntervalId now).intervals =
        (handleWebSocketMessage playerId st
          (WsMessage.gameStateUpdate payload)).intervals ∧
      (timerTick
          (handleWebSocketMessage playerId st (WsMessage.gameStateUpdate payload))
          st.nextIntervalId now).timerIntervalRef =
        (handleWebSocketMessage playerId st
          (WsMessage.gameStateUpdate payload)).timerIntervalRef) := by
  have hinv' :
      TimerInv
        { st with
            gameState := some payload
            drawingHistory := payload.drawing_strokes.getD []
            currentRemoteDrawingPoint := none } :=
    timerInv_const st _ rfl rfl rfl hinv
  have hstep :
      handleWebSocketMessage playerId st (WsMessage.gameStateUpdate payload) =
        handleTimer
          { st with
              gameState := some payload
              drawingHistory := payload.drawing_strokes.getD []
              currentRemoteDrawingPoint := none }
          payload.timer_expires_at := rfl
  rw [hstep, he, handleTimer_arm _ e hinv' hne]
  have hid : 1 ≤ st.nextIntervalId := hinv.1
  refine ⟨rfl, rfl, rfl, ?_, ?_, ?_⟩
  · intro now
    rw [timerTick_armed _ st.nextIntervalId e now rfl rfl hid]
    split_ifs with h0
    · exact h0.symm
    · rfl
  · intro now h0
    rw [timerTick_armed _ st.nextIntervalId e now rfl rfl hid, if_pos h0]
    exact ⟨rfl, rfl, fun id2 now2 => timerTick_dead _ id2 now2 rfl⟩
  · intro now h0
    rw [timerTick_armed _ st.nextIntervalId e now rfl rfl hid, if_neg h0]
    exact ⟨rfl, rfl⟩

/-- Witness for the amended C4: re-arming `armedState` with expiry 200. -/
theorem claim_C4_witness :
    TimerInv armedState ∧
    ({ basePayload with timer_expires_at := some (200 : Rat) }
        : SessionPayload).timer_expires_at = some (200 : Rat) ∧
    (200 : Rat) ≠ 0 ∧
    (handleWebSocketMessage "p1" armedState
        (WsMessage.gameStateUpdate
          { basePayload with timer_expires_at := some 200 })).intervals =
      [(armedState.nextIntervalId, 200)] ∧
    (handleWebSocketMessage "p1" armedState
        (WsMessage.gameStateUpdate
          { basePayload with timer_expires_at := some 200 })).timeLeft =
      armedState.timeLeft :=
  ⟨timerInv_armedState, rfl, by decide,
    (claim_C4_amended "p1" armedState _ 200 timerInv_armedState rfl
        (by decide)).1,
    (claim_C4_amended "p1" armedState _ 200 timerInv_armedState rfl
        (by decide)).2.2.1⟩

/-- C5. Once armed with a fixed expiry `E`, each tick writes
`remaining = max(0, floor(E − now))`; with non-decreasing `now` the next
tick's value never exceeds the previous one; and once a tick writes 0 the
interval is cleared, so no later tick (of any interval id) changes the state
again for that arming. -/
theorem claim_C5 (st : PageState) (id : Nat) (E now1 now2 : Rat)
    (hint : st.intervals = [(id, E)]) (href : st.timerIntervalRef = some id)
    (hid : 1 ≤ id) (hmono : now1 ≤ now2) :
    (timerTick st id now1).timeLeft = remainingAt E now1 ∧
    (timerTick (timerTick st id now1) id now2).timeLeft ≤
      (timerTick st id now1).timeLeft ∧
    ((timerTick st id now1).timeLeft = 0 →
      (timerTick st id now1).intervals = [] ∧
      (timerTick st id now1).timerIntervalRef = none ∧
      ∀ id2 now3,
        timerTick (timerTick st id now1) id2 now3 = timerTick st id now1) := by
  rw [timerTick_armed st id E now1 hint href hid]
  by_cases h0 : remainingAt E now1 = 0
  · rw [if_pos h0]
    refine ⟨h0.symm, ?_, ?_⟩
    · rw [timerTick_dead _ id now2 rfl]
    · intro _
      exact ⟨rfl, rfl, fun id2 now3 => timerTick_dead _ id2 now3 rfl⟩
  · rw [if_neg h0]
    refine ⟨rfl, ?_, ?_⟩
    · rw [timerTick_armed { st with timeLeft := remainingAt E now1 } id E now2
        hint href hid]
      split_ifs
      · exact Nat.zero_le _
      · exact remainingAt_anti E hmono
    · intro h
      exact absurd h h0

/-- Witness for C5: two ticks of `armedState` at the same instant 101. -/
theorem claim_C5_witness :
    armedState.intervals = [(1, (100 : Rat))] ∧
    armedState.timerIntervalRef = some 1 ∧
    1 ≤ 1 ∧ (101 : Rat) ≤ 101 ∧
    (timerTick armedState 1 101).timeLeft = remainingAt 100 101 ∧
    (timerTick (timerTick armedState 1 101) 1 101).timeLeft ≤
      (timerTick armedState 1 101).timeLeft :=
  ⟨rfl, rfl, Nat.le_refl 1, le_refl _,
    (claim_C5 armedState 1 100 101 101 rfl rfl (Nat.le_refl 1) (le_refl _)).1,
    (claim_C5 armedState 1 100 101 101 rfl rfl (Nat.le_refl 1) (le_refl _)).2.1⟩

/-- Counterexample to C6 as stated: session teardown (the connection
effect's cleanup) clears the interval but does not zero `remaining` —
tearing down `armedState`, whose countdown shows 5, leaves `timeLeft = 5`. -/
theorem claim_C6_counterexample :
    (teardownCleanup armedState).timeLeft = 5 ∧ (5 : Nat) ≠ 0 ∧
    (teardownCleanup armedState).intervals = [] := by
  exact ⟨rfl, by decide, by decide⟩

/-- C6 as amended. The timer invariant (at most one alive tick source, the
one the ref names) holds initially and is preserved by every dispatcher
step, every tick, and teardown; arming with a truthy expiry E2 while armed
leaves exactly the one tick source driven by E2; a null-expiry snapshot
cancels the tick source and zeroes `remaining`; teardown cancels the tick
source but leaves `remaining` unchanged (it does not set it to 0). -/
theorem claim_C6_amended :
    TimerInv initialPageState ∧
    (∀ playerId st msg, TimerInv st →
      TimerInv (handleWebSocketMessage playerId st msg)) ∧
    (∀ st id now, TimerInv st → TimerInv (timerTick st id now)) ∧
    (∀ st, TimerInv st → TimerInv (teardownCleanup st)) ∧
    (∀ st, TimerInv st → st.intervals.length ≤ 1) ∧
    (∀ playerId st payload e2, TimerInv st →
      payload.timer_expires_at = some e2 → e2 ≠ 0 →
      (handleWebSocketMessage playerId st
          (WsMessage.gameStateUpdate payload)).intervals =
        [(st.nextIntervalId, e2)] ∧
      (handleWebSocketMessage playerId st
          (WsMessage.gameStateUpdate payload)).timerIntervalRef =
        some st.nextIntervalId) ∧
    (∀ playerId st payload, TimerInv st → payload.timer_expires_at = none →
      (handleWebSocketMessage playerId st
          (WsMessage.gameStateUpdate payload)).intervals = [] ∧
      (handleWebSocketMessage playerId st
          (WsMessage.gameStateUpdate payload)).timerIntervalRef = none ∧
      (handleWebSocketMessage playerId st
          (WsMessage.gameStateUpdate payload)).timeLeft = 0) ∧
    (∀ st, TimerInv st →
      (teardownCleanup st).intervals = [] ∧
      (teardownCleanup st).timeLeft = st.timeLeft) := by
  refine ⟨⟨by decide, ?_, Or.inl rfl⟩, timerInv_handle, timerInv_timerTick,
    timerInv_teardown, ?_, ?_, ?_, ?_⟩
  · intro id h
    exact absurd h (by simp [initialPageState])
  · intro st hinv
    rcases hinv.2.2 with hnil | ⟨id, E, hi, -⟩
    · rw [hnil]
      simp
    · rw [hi]
      simp
  · intro playerId st payload e2 hinv he hne
    have hinv' :
        TimerInv
          { st with
              gameState := some payload
              drawingHistory := payload.drawing_strokes.getD []
              currentRemoteDrawingPoint := none } :=
      timerInv_const st _ rfl rfl rfl hinv
    have hstep :
        handleWebSocketMessage playerId st (WsMessage.gameStateUpdate payload) =
          handleTimer
            { st with
                gameState := some payload
                drawingHistory := payload.drawing_strokes.getD []
                currentRemoteDrawingPoint := none }
            payload.timer_expires_at := rfl
    rw [hstep, he, handleTimer_arm _ e2 hinv' hne]
    exact ⟨rfl, rfl⟩
  · intro playerId st payload hinv he
    have hinv' :
        TimerInv
          { st with
              gameState := some payload
              drawingHistory := payload.drawing_strokes.getD []
              currentRemoteDrawingPoint := none } :=
      timerInv_const st _ rfl rfl rfl hinv
    have hstep :
        handleWebSocketMessage playerId st (WsMessage.gameStateUpdate payload) =
          handleTimer
            { st with
                gameState := some payload
                drawingHistory := payload.drawing_strokes.getD []
                currentRemoteDrawingPoint := none }
            payload.timer_expires_at := rfl
    rw [hstep, he, handleTimer_disarm _ hinv' none rfl]
    exact ⟨rfl, rfl, rfl⟩
  · intro st hinv
    obtain ⟨h1, h2, -⟩ := teardownCleanup_spec st hinv
    exact ⟨h1, h2⟩

/-- Witness for the amended C6: the teardown and supersede conjuncts applied
to `armedState` with expiry 200. -/
theorem claim_C6_witness :
    TimerInv armedState ∧
    (teardownCleanup armedState).intervals = [] ∧
    (teardownCleanup armedState).timeLeft = armedState.timeLeft ∧
    (handleWebSocketMessage "p2" armedState
        (WsMessage.gameStateUpdate
          { basePayload with timer_expires_at := some 200 })).intervals =
      [(armedState.nextIntervalId, 200)] ∧
    armedState.intervals.length ≤ 1 :=
  ⟨timerInv_armedState,
    (claim_C6_amended.2.2.2.2.2.2.2 armedState timerInv_armedState).1,
    (claim_C6_amended.2.2.2.2.2.2.2 armedState timerInv_armedState).2,
    (claim_C6_amended.2.2.2.2.2.1 "p2" armedState _ 200 timerInv_armedState
        rfl (by decide)).1,
    claim_C6_amended.2.2.2.2.1 armedState timerInv_armedState⟩

/-- C10. Processing a `GAME_STATE_UPDATE` end to end repaints the surface
but leaves the incremental path's running anchor (`lastPoint`) untouched,
for drawer and non-drawer alike; consequently an incremental `draw` point
arriving right after the snapshot is not dropped: it is rendered as one
segment joined to the pre-snapshot anchor, and the anchor then advances to
the new point. -/
theorem claim_C10 :
    (∀ (playerId : String) (isDrawer : Bool) (cs : ClientState)
        (payload : SessionPayload),
        (clientStep playerId isDrawer cs
            (WsMessage.gameStateUpdate payload)).canvas.lastPoint =
          cs.canvas.lastPoint) ∧
    (∀ (playerId : String) (cs : ClientState) (payload : SessionPayload)
        (d : DrawingData) (p : Int × Int),
        cs.canvas.lastPoint = some p → d.action = DrawAction.draw →
        (clientStep playerId false
            (clientStep playerId false cs (WsMessage.gameStateUpdate payload))
            (WsMessage.drawingUpdate d)).canvas =
          { surface :=
              (clientStep playerId false cs
                  (WsMessage.gameStateUpdate payload)).canvas.surface ++
                [⟨p.1, p.2, d.x, d.y, d.color, d.brush_size⟩]
            lastPoint := some (d.x, d.y) }) := by
  refine ⟨fun playerId isDrawer cs payload => rfl, ?_⟩
  intro playerId cs payload d p hp ha
  have hlast :
      (clientStep playerId false cs
          (WsMessage.gameStateUpdate payload)).canvas.lastPoint = some p := hp
  exact incrementalEffect_draw _ p d ha hlast

/-- Witness for C10: a pre-snapshot anchor (3,4) survives a snapshot of
`basePayload` and joins the next incremental `draw` point (10,10). -/
theorem claim_C10_witness :
    (⟨initialPageState, ⟨[], some (3, 4)⟩⟩ : ClientState).canvas.lastPoint =
      some (3, 4) ∧
    scenarioDraw.action = DrawAction.draw ∧
    (clientStep "p1" false
        (clientStep "p1" false (⟨initialPageState, ⟨[], some (3, 4)⟩⟩ : ClientState)
          (WsMessage.gameStateUpdate basePayload))
        (WsMessage.drawingUpdate scenarioDraw)).canvas =
      { surface :=
          (clientStep "p1" false
              (⟨initialPageState, ⟨[], some (3, 4)⟩⟩ : ClientState)
              (WsMessage.gameStateUpdate basePayload)).canvas.surface ++
            [⟨3, 4, 10, 10, "#000", 4⟩]
        lastPoint := some (10, 10) } :=
  ⟨rfl, rfl,
    claim_C10.2 "p1" ⟨initialPageState, ⟨[], some (3, 4)⟩⟩ basePayload
      scenarioDraw (3, 4) rfl rfl⟩

end Pictionary
